import Mathlib

/-!
Shallow embedding of the Gokarna Guide travel-assistant front end
(client-side conversation orchestration and live-audio streaming).

The definitions below are translated from the TypeScript source:
`App.tsx` (intent router `handleSendMessage`, `updateSessionMessages`,
`handleImageGeneration`, `handleImageEdit`, `handleVideoGeneration`),
`services/geminiService.ts` (`generateVideo`), and
`components/LiveChatView.tsx` (`encode`, `decode`, audio scheduling and
interruption handling in the realtime `onmessage` callback).
JavaScript strings are modelled as Lean `String`/`List Char`; machine
behaviour that matters (ASCII case folding, JS whitespace for `trim`,
the exact regexes of the router) is embedded explicitly.
-/

namespace Gokarna

/-- JS `\w` word-character class (ASCII letters, digits, underscore). -/
def isWordChar (c : Char) : Bool :=
  (('a' ≤ c && c ≤ 'z') || ('A' ≤ c && c ≤ 'Z') || ('0' ≤ c && c ≤ '9') || c = '_')

/-- JS whitespace (`\s`) restricted to the ASCII range: space, tab,
line feed, carriage return, vertical tab, form feed.  (JS additionally
treats some Unicode spaces as `\s`; none occur in this program's data.) -/
def isJsSpace (c : Char) : Bool :=
  (c = ' ' || c = '\t' || c = '\n' || c = '\r' || c = '\x0b' || c = '\x0c')

/-- JS `String.prototype.trim` on a character list. -/
def trimChars (cs : List Char) : List Char :=
  ((cs.dropWhile isJsSpace).reverse.dropWhile isJsSpace).reverse

/-- JS `String.prototype.trim`. -/
def jsTrim (s : String) : String := ⟨trimChars s.data⟩

/-- JS `String.prototype.toLowerCase`; Lean's `Char.toLower` performs the
same ASCII case folding, which agrees with JS on every string this
program compares (language names, art styles, suggestion labels). -/
def jsToLower (s : String) : String := ⟨s.data.map Char.toLower⟩

/-- Case-insensitive literal match of a pattern at the head of the input;
returns the rest of the input after the pattern on success. -/
def matchCI : List Char → List Char → Option (List Char)
  | [], cs => some cs
  | _ :: _, [] => none
  | p :: ps, c :: cs => if p.toLower = c.toLower then matchCI ps cs else none

/-- `\s+` at the head of the input: requires at least one JS whitespace
character and consumes the maximal run (the following alternatives all
start with non-whitespace characters, so greedy consumption is exact). -/
def dropSpaces1 : List Char → Option (List Char)
  | [] => none
  | c :: cs => if isJsSpace c then some (cs.dropWhile isJsSpace) else none

/-- A word boundary `\b` immediately after a word character: the rest of
the input is empty or starts with a non-word character. -/
def boundaryAfter : List Char → Bool
  | [] => true
  | c :: _ => !isWordChar c

/-- First `some` produced by `f` over a list (regex alternation order). -/
def firstSome {α β : Type} (f : α → Option β) : List α → Option β
  | [] => none
  | a :: as =>
    match f a with
    | some b => some b
    | none => firstSome f as

/-- A supported language (from `types.ts`; the `nativeName` field plays no
role in the routed logic and is omitted). -/
structure Language where
  code : String
  name : String
deriving DecidableEq, Repr

/-- Modelled from the spec: the supported-language set `LANGUAGES` lives in
`constants.ts`, which is not under `src/`.  The language codes are fixed by
the `initialSuggestions` table in `App.tsx` (en-US, hi-IN, kn-IN, ta-IN,
te-IN, ml-IN) and the spec's scenario gives the entry
`\x7bcode: hi-IN, name: Hindi\x7d`; the remaining names are the English
names of those locales. -/
def LANGUAGES : List Language :=
  [⟨"en-US", "English"⟩, ⟨"hi-IN", "Hindi"⟩, ⟨"kn-IN", "Kannada"⟩,
   ⟨"ta-IN", "Tamil"⟩, ⟨"te-IN", "Telugu"⟩, ⟨"ml-IN", "Malayalam"⟩]

/-- Modelled from the spec: the fixed enumerated art-style set
`ART_STYLES` lives in `constants.ts`, which is not under `src/`.  The
spec names "Watercolor" as one of the enumerated styles; the others are
representative style labels. -/
def ART_STYLES : List String :=
  ["Photorealistic", "Watercolor", "Cartoon", "Oil Painting", "Sketch"]

/-- The trigger alternatives of the language-switch regex
`\b(?:in|speak|talk in|use|change to|switch to|respond in)\s+(<names>)\b`
in their alternation order. -/
def langTriggers : List String :=
  ["in", "speak", "talk in", "use", "change to", "switch to", "respond in"]

/-- Try to match `<language name>\b` (case-insensitively) at the head of
the input, alternatives in `LANGUAGES` order; on success return the
captured name lowercased (the JS code lowercases `match[1]`, and ASCII
case folding of the matched input characters agrees with folding the
pattern's characters). -/
def tryLangName (cs : List Char) : Option String :=
  firstSome
    (fun l =>
      match matchCI l.name.data cs with
      | some rest => if boundaryAfter rest then some (jsToLower l.name) else none
      | none => none)
    LANGUAGES

/-- Try the whole language-switch pattern at this input position (the
position is already known to sit at a word boundary): a trigger word,
then `\s+`, then a supported language name followed by `\b`. -/
def tryLangSwitchAt (cs : List Char) : Option String :=
  firstSome
    (fun t =>
      match matchCI t.data cs with
      | some r1 =>
        match dropSpaces1 r1 with
        | some r2 => tryLangName r2
        | none => none
      | none => none)
    langTriggers

/-- Left-to-right scan of `text.trim().match(langChangeRegex)`: at each
position that sits at a word boundary (every trigger starts with a word
character, so the boundary holds exactly when the previous character is
not a word character), try the pattern; the first success is the leftmost
match and yields the captured language name, lowercased. -/
def scanLangSwitch : Bool → List Char → Option String
  | _, [] => none
  | prevWord, c :: cs =>
    match (if prevWord then none else tryLangSwitchAt (c :: cs)) with
    | some nm => some nm
    | none => scanLangSwitch (isWordChar c) cs

/-- `text.trim().match(langChangeRegex)` reduced to its captured group:
the lowercased language name of the leftmost match, if any. -/
def langSwitchMatch (text : String) : Option String :=
  scanLangSwitch false (jsTrim text).data

/-- The alternatives of `imageGenRegex` in alternation order. -/
def imageGenWords : List String :=
  ["generate", "create", "draw", "make", "imagine", "show me", "give me",
   "produce", "render", "paint", "picture", "photo", "drawing", "painting",
   "illustration", "artwork", "sketch", "portrait"]

/-- `imageGenRegex.test`: some position at a word boundary starts one of
the alternatives followed by `\b`. -/
def scanImageGen : Bool → List Char → Bool
  | _, [] => false
  | prevWord, c :: cs =>
    (if prevWord then false
     else
       (firstSome
          (fun w =>
            match matchCI w.data (c :: cs) with
            | some rest => if boundaryAfter rest then some () else none
            | none => none)
          imageGenWords).isSome) ||
    scanImageGen (isWordChar c) cs

/-- `/\b(generate|create|...|portrait)\b/i.test (text)`. -/
def imageGenTest (text : String) : Bool := scanImageGen false text.data

/-- The second alternation of `imageGenBlockRegex`. -/
def blockMiddles : List String := ["to", "do you", "is it possible to"]

/-- The final alternation of `imageGenBlockRegex` (no trailing `\b`). -/
def blockVerbs : List String := ["generate", "create", "draw", "make", "edit"]

/-- The tail of `imageGenBlockRegex` after the `.\x7b0,50\x7d` gap:
`(to|do you|is it possible to)\s*(generate|create|draw|make|edit)` —
one of the middle alternatives, optional whitespace, then a verb matched
as a bare prefix. -/
def blockTailMatch (cs : List Char) : Bool :=
  (firstSome
    (fun m =>
      match matchCI m.data cs with
      | some r1 =>
        let r2 := r1.dropWhile isJsSpace
        (firstSome (fun v => matchCI v.data r2) blockVerbs).map (fun _ => ())
      | none => none)
    blockMiddles).isSome

/-- The `.\x7b0,50\x7d\b` gap of `imageGenBlockRegex`: consume up to
`fuel` non-line-terminator characters, and at every stop that sits at a
word boundary (the previous character is not a word character) try the
pattern tail.  The gap starts right after a question word, whose last
character is a word character, so the initial `prevWord` is `true`. -/
def blockGapScan : Nat → Bool → List Char → Bool
  | fuel, prevWord, cs =>
    ((!prevWord) && blockTailMatch cs) ||
    match fuel, cs with
    | 0, _ => false
    | _, [] => false
    | f + 1, c :: rest =>
      if c = '\n' || c = '\r' then false
      else blockGapScan f (isWordChar c) rest

/-- The first alternation of `imageGenBlockRegex`. -/
def blockQuestionWords : List String := ["what", "how", "why", "explain", "describe"]

/-- `imageGenBlockRegex.test`: some word-boundary position starts a
question word with `\b` after it, followed within 0–50 characters (none a
line terminator) by the pattern tail at a word boundary. -/
def scanImageBlock : Bool → List Char → Bool
  | _, [] => false
  | prevWord, c :: cs =>
    (if prevWord then false
     else
       (firstSome
          (fun w =>
            match matchCI w.data (c :: cs) with
            | some rest =>
              if boundaryAfter rest then
                if blockGapScan 50 true rest then some () else none
              else none
            | none => none)
          blockQuestionWords).isSome) ||
    scanImageBlock (isWordChar c) cs

/-- `/\b(what|how|why|explain|describe)\b.\x7b0,50\x7d\b(to|do you|is it
possible to)\s*(generate|create|draw|make|edit)/i.test (text)`. -/
def imageGenBlockTest (text : String) : Bool := scanImageBlock false text.data

/-- The sixth entry (`[5].text`) of `initialSuggestions[code]` in
`App.tsx` — the localized "Trip Plan" label for each supported language
code, copied from the source table. -/
def initialSuggestionTrip (code : String) : String :=
  if code = "en-US" then "Trip Plan"
  else if code = "hi-IN" then "यात्रा योजना"
  else if code = "kn-IN" then "ಪ್ರವಾಸ ಯೋಜನೆ"
  else if code = "ta-IN" then "பயணத் திட்டம்"
  else if code = "te-IN" then "ట్రిప్ ప్లాన్"
  else if code = "ml-IN" then "യാത്രാ പദ്ധതി"
  else "Trip Plan"

/-- `LANGUAGES.map(lang => initialSuggestions[lang.code][5].text.toLowerCase())`. -/
def tripPlanVariants : List String :=
  LANGUAGES.map (fun l => jsToLower (initialSuggestionTrip l.code))

/-- Modelled from the spec: `TRIP_PLAN_PROMPT` is a language-keyed map of
canned trip-plan replies living in `constants.ts`, which is not under
`src/`; only its keyed-lookup shape matters to the router. -/
def TRIP_PLAN_PROMPT (code : String) : Option String :=
  if LANGUAGES.any (fun l => l.code = code) then
    some ("Canned trip plan (" ++ code ++ ")")
  else none

/-- `UploadedFile` from `types.ts` (the optional preview URL is purely
presentational and omitted). -/
structure UploadedFile where
  name : String
  mimeType : String
  data : String
deriving DecidableEq, Repr

/-- Message sender. -/
inductive Sender where
  | user
  | bot
deriving DecidableEq, Repr

/-- Video lifecycle state of a message (`videoState` in `types.ts`). -/
inductive VideoState where
  | generating
  | done
  | failed
deriving DecidableEq, Repr

/-- A grounding citation (`sources` entry in `types.ts`). -/
structure SourceRef where
  uri : String
  title : String
deriving DecidableEq, Repr

/-- `ChatMessage` from `types.ts`.  Suggestions are kept as their display
texts (icons are presentational); optional fields keep their TS
optionality, with absent boolean flags read as `false` exactly as JS
truthiness does. -/
structure ChatMessage where
  id : Nat
  text : String
  sender : Sender
  suggestions : List String := []
  images : List String := []
  sources : Option (List SourceRef) := none
  isLoading : Bool := false
  files : List UploadedFile := []
  isWelcome : Bool := false
  isSystem : Bool := false
  videoState : Option VideoState := none
  videoUrl : Option String := none
deriving DecidableEq, Repr

/-- `ChatSession` from `types.ts`. -/
structure ChatSession where
  id : String
  title : String
  messages : List ChatMessage
  languageCode : String
deriving DecidableEq, Repr

/-- `updateSessionMessages` from `App.tsx`: map over the session list and
replace the messages of the session whose id matches by applying the
updater to its current messages. -/
def updateSessionMessages (sessions : List ChatSession) (sessionId : String)
    (newMessages : List ChatMessage → List ChatMessage) : List ChatSession :=
  sessions.map (fun session =>
    if session.id = sessionId then
      { session with messages := newMessages session.messages }
    else session)

/-- The backend requests a router action issues synchronously. -/
inductive BackendCall where
  | chatStream
  | generateImage (prompt : String)
  | editImage (file : UploadedFile) (prompt : String)
deriving DecidableEq, Repr

/-- The action `handleSendMessage` dispatches for one submission. -/
inductive RouterAction where
  | noAction
  | langSwitch (target : Language)
  | styleSelect (pendingPrompt : String) (style : String)
  | imageEdit (file : UploadedFile) (instruction : String)
  | imageGenIntent (prompt : String)
  | tripPlan
  | defaultChat
deriving DecidableEq, Repr

/-- The synchronous outcome of one `handleSendMessage` call: the fired
action, the active session's message list and language code after the
synchronous updates, the pending image prompt after the call, the session
title, the backend calls issued, and whether a `isLoading` placeholder
bot message was appended. -/
structure RouterOutcome where
  action : RouterAction
  messages : List ChatMessage
  languageCode : String
  pendingAfter : Option String
  title : String
  backendCalls : List BackendCall
  addedLoadingPlaceholder : Bool
deriving DecidableEq, Repr

/-- The repeated update pattern
`prev.length === 1 && prev[0].isWelcome ? newMsgs : [...prev, ...newMsgs]`
used by the trip-plan, default-chat, image-edit and video branches. -/
def welcomeCollapse (prev newMsgs : List ChatMessage) : List ChatMessage :=
  match prev with
  | [m] => if m.isWelcome then newMsgs else prev ++ newMsgs
  | _ => prev ++ newMsgs

/-- An outcome that leaves everything unchanged and fires nothing. -/
def idleOutcome (session : ChatSession) (pending : Option String) : RouterOutcome :=
  { action := .noAction, messages := session.messages,
    languageCode := session.languageCode, pendingAfter := pending,
    title := session.title, backendCalls := [], addedLoadingPlaceholder := false }

/-- Synchronous part of `handleImageGeneration` (App.tsx): append the
user's style message and a loading placeholder, and call the image
backend with `A <style lowercased> of: <prompt>`. -/
def imageGenerationOutcome (now : Nat) (session : ChatSession)
    (pending : Option String) (prompt style : String) : RouterOutcome :=
  let userStyleMessage : ChatMessage := { id := now, text := style, sender := .user }
  let botMessagePlaceholder : ChatMessage :=
    { id := now + 1, text := "", sender := .bot, isLoading := true }
  { idleOutcome session pending with
    action := .styleSelect prompt style,
    messages := session.messages ++ [userStyleMessage, botMessagePlaceholder],
    backendCalls := [.generateImage ("A " ++ jsToLower style ++ " of: " ++ prompt)],
    addedLoadingPlaceholder := true }

/-- Synchronous part of `handleImageEdit` (App.tsx): append the tagged
user message and a loading placeholder, and call the image-edit backend. -/
def imageEditOutcome (now : Nat) (session : ChatSession)
    (pending : Option String) (text : String) (file : UploadedFile) : RouterOutcome :=
  let userMessage : ChatMessage :=
    { id := now, text := "(Edit Prompt: " ++ text ++ ")", sender := .user, files := [file] }
  let botMessagePlaceholder : ChatMessage :=
    { id := now + 1, text := "", sender := .bot, isLoading := true }
  { idleOutcome session pending with
    action := .imageEdit file text,
    messages := welcomeCollapse session.messages [userMessage, botMessagePlaceholder],
    backendCalls := [.editImage file text],
    addedLoadingPlaceholder := true }

/-- The default-chat branch of `handleSendMessage`: append the user
message (with its files) and a loading placeholder, update the title on
the session's first user message, and delegate to the streaming chat
backend. -/
def defaultChatOutcome (now : Nat) (session : ChatSession)
    (pending : Option String) (text : String) (files : List UploadedFile) : RouterOutcome :=
  let userMessage : ChatMessage := { id := now, text := text, sender := .user, files := files }
  let botMessagePlaceholder : ChatMessage :=
    { id := now + 1, text := "", sender := .bot, isLoading := true }
  let isFirstUserMessage := (session.messages.filter (fun m => m.sender = .user)).length = 0
  { idleOutcome session pending with
    action := .defaultChat,
    messages := welcomeCollapse session.messages [userMessage, botMessagePlaceholder],
    title := if isFirstUserMessage then ⟨text.data.take 40⟩ else session.title,
    backendCalls := [.chatStream],
    addedLoadingPlaceholder := true }

/-- The body of the trip-plan branch: append the user message and the
canned language-specific reply (with welcome collapse); no backend call. -/
def tripPlanOutcome (now : Nat) (session : ChatSession) (pending : Option String)
    (text : String) : RouterOutcome :=
  let userMessage : ChatMessage := { id := now, text := text, sender := .user }
  let botResponse : ChatMessage :=
    { id := now + 1, sender := .bot,
      text := (TRIP_PLAN_PROMPT session.languageCode).getD
        ((TRIP_PLAN_PROMPT "en-US").getD "") }
  { idleOutcome session pending with
    action := .tripPlan,
    messages := welcomeCollapse session.messages [userMessage, botResponse] }

/-- The trip-plan branch and everything after it. -/
def tripOrLater (now : Nat) (session : ChatSession) (pending : Option String)
    (text : String) (files : List UploadedFile) : RouterOutcome :=
  if tripPlanVariants.contains (jsTrim (jsToLower text)) && files.isEmpty then
    tripPlanOutcome now session pending text
  else defaultChatOutcome now session pending text files

/-- The body of the image-generation-intent branch: record the pending
prompt, filter out the welcome placeholder, and append the user message
and the art-style offer; no backend call yet. -/
def imageGenIntentOutcome (now : Nat) (session : ChatSession) (pending : Option String)
    (text : String) : RouterOutcome :=
  let userMessage : ChatMessage := { id := now, text := text, sender := .user }
  let botMessage : ChatMessage :=
    { id := now + 1, sender := .bot,
      text := "Sounds creative! Which art style would you like?",
      suggestions := ART_STYLES }
  { idleOutcome session pending with
    action := .imageGenIntent text,
    messages := (session.messages.filter (fun m => !m.isWelcome)) ++ [userMessage, botMessage],
    pendingAfter := some text }

/-- The image-generation-intent branch and everything after it. -/
def imageGenOrLater (now : Nat) (session : ChatSession) (pending : Option String)
    (text : String) (files : List UploadedFile) : RouterOutcome :=
  if imageGenTest (jsTrim text) && !imageGenBlockTest (jsTrim text) && files.isEmpty then
    imageGenIntentOutcome now session pending text
  else tripOrLater now session pending text files

/-- The image-edit branch and everything after it. -/
def editOrLater (now : Nat) (session : ChatSession) (pending : Option String)
    (text : String) (files : List UploadedFile) : RouterOutcome :=
  match files with
  | [file] =>
    if file.mimeType.startsWith "image/" && jsTrim text != "" then
      imageEditOutcome now session pending text file
    else imageGenOrLater now session pending text files
  | _ => imageGenOrLater now session pending text files

/-- The body of the language-switch branch of `handleSendMessage`: filter
out the welcome placeholder and append the user message, set the
session's language code, and append the confirmation message
`Certainly! I will now respond in <language name>.` — no backend call. -/
def langSwitchOutcome (now : Nat) (session : ChatSession) (pending : Option String)
    (targetLanguage : Language) (text : String) : RouterOutcome :=
  let userMessage : ChatMessage := { id := now, text := text, sender := .user }
  let confirmationMessage : ChatMessage :=
    { id := now + 1, sender := .bot,
      text := "Certainly! I will now respond in " ++ targetLanguage.name ++ "." }
  { idleOutcome session pending with
    action := .langSwitch targetLanguage,
    messages := (session.messages.filter (fun m => !m.isWelcome))
      ++ [userMessage, confirmationMessage],
    languageCode := targetLanguage.code }

/-- `handleSendMessage` from `App.tsx`, as a pure function from the
submission `(text, files)`, the active session, and the pending image
prompt to the synchronous outcome.  `now` stands for `Date.now()` at the
time of the call (the source derives the user-message id from it and the
bot-message id from it plus one). -/
def handleSendMessage (now : Nat) (session : ChatSession) (pending : Option String)
    (text : String) (files : List UploadedFile) : RouterOutcome :=
  if jsTrim text = "" ∧ files = [] then idleOutcome session pending
  else
    let langOutcome : Option RouterOutcome :=
      match langSwitchMatch text with
      | some requestedLangName =>
        match LANGUAGES.find? (fun l => jsToLower l.name = requestedLangName) with
        | some targetLanguage =>
          if targetLanguage.code ≠ session.languageCode then
            some (langSwitchOutcome now session pending targetLanguage text)
          else none
        | none => none
      | none => none
    match langOutcome with
    | some outcome => outcome
    | none =>
      match pending with
      | some pendingPrompt =>
        if ART_STYLES.contains text then
          imageGenerationOutcome now session none pendingPrompt text
        else editOrLater now session none text files
      | none => editOrLater now session none text files

/-- The effective language-switch target of a submission: the supported
language matched by the switch phrase, provided it differs from the
session's current language (the source falls through to the later
branches otherwise). -/
def langSwitchTarget (session : ChatSession) (text : String) : Option Language :=
  match langSwitchMatch text with
  | some requestedLangName =>
    match LANGUAGES.find? (fun l => jsToLower l.name = requestedLangName) with
    | some targetLanguage =>
      if targetLanguage.code ≠ session.languageCode then some targetLanguage else none
    | none => none
  | none => none

/-- Spec-side condition: the submission is a language switch. -/
def condLang (session : ChatSession) (text : String) : Bool :=
  (langSwitchTarget session text).isSome

/-- Spec-side condition: a pending image prompt exists and the text is an
enumerated art style. -/
def condStyle (pending : Option String) (text : String) : Bool :=
  pending.isSome && ART_STYLES.contains text

/-- Spec-side condition: exactly one attached image file and non-empty text. -/
def condEdit (text : String) (files : List UploadedFile) : Bool :=
  match files with
  | [file] => file.mimeType.startsWith "image/" && jsTrim text != ""
  | _ => false

/-- Spec-side condition: image-request pattern matches, the meta-question
exclusion does not, and no files are attached. -/
def condImageGen (text : String) (files : List UploadedFile) : Bool :=
  imageGenTest (jsTrim text) && !imageGenBlockTest (jsTrim text) && files.isEmpty

/-- Spec-side condition: the text is a localized trip-plan label and no
files are attached. -/
def condTrip (text : String) (files : List UploadedFile) : Bool :=
  tripPlanVariants.contains (jsTrim (jsToLower text)) && files.isEmpty

/-! ### Streaming reply assembly (`handleSendMessage`, App.tsx 617–644) -/

/-- `\)` reached by a lazy `.*?`: the rest of the input after the first
`)` that is not preceded by a line terminator (JS `.` matches neither
`\n` nor `\r`). -/
def findCloseParen : List Char → Option (List Char)
  | [] => none
  | c :: rest =>
    if c = ')' then some rest
    else if c = '\n' || c = '\r' then none
    else findCloseParen rest

/-- The lazy search of `.*?\]\(.*?\)` after the literal `![`: scan for
the first `](` from which a `)` is reachable without a line terminator;
on failure at one `](`, the lazy `.*?` absorbs the `]` and the scan
continues (regex backtracking).  Returns the rest of the input after the
closing `)`. -/
def findBracketParen : List Char → Option (List Char)
  | [] => none
  | ']' :: '(' :: rest2 =>
    match findCloseParen rest2 with
    | some r => some r
    | none => findBracketParen ('(' :: rest2)
  | c :: rest => if c = '\n' || c = '\r' then none else findBracketParen rest

theorem findCloseParen_length :
    ∀ cs r, findCloseParen cs = some r → r.length < cs.length := by
  intro cs
  induction cs with
  | nil => intro r h; simp [findCloseParen] at h
  | cons c rest ih =>
    intro r h
    simp only [findCloseParen] at h
    split at h
    · cases h; simp
    · split at h
      · cases h
      · exact Nat.lt_trans (ih r h) (by simp)

theorem findBracketParen_length :
    ∀ cs r, findBracketParen cs = some r → r.length < cs.length := by
  intro cs
  induction cs with
  | nil => intro r h; simp [findBracketParen] at h
  | cons c rest ih =>
    intro r h
    rw [findBracketParen.eq_def] at h
    split at h
    · cases h
    · rename_i rest2 heq
      injection heq with h1 h2
      subst h1; subst h2
      split at h
      · rename_i r2 hc
        have hlen := findCloseParen_length rest2 r2 hc
        injection h with hr
        subst hr
        simp only [List.length_cons] at hlen ⊢
        omega
      · have := ih r h
        simp only [List.length_cons] at this ⊢
        omega
    · rename_i c2 rest2 hne heq
      injection heq with h1 h2
      subst h1; subst h2
      split at h
      · cases h
      · exact Nat.lt_trans (ih r h) (by simp)

/-- `fullResponse.replace(/!\[.*?\]\(.*?\)/g, '')`: the global
left-to-right removal of inline image markdown. -/
def stripImagesAux : List Char → List Char
  | [] => []
  | '!' :: '[' :: rest =>
    match h : findBracketParen rest with
    | some r => stripImagesAux r
    | none => '!' :: '[' :: stripImagesAux rest
  | c :: rest => c :: stripImagesAux rest
termination_by cs => cs.length
decreasing_by
  · have := findBracketParen_length rest r h
    simp only [List.length_cons]
    omega
  · simp only [List.length_cons]; omega
  · simp only [List.length_cons]; omega

/-- String form of the image-markdown removal. -/
def stripImages (s : String) : String := ⟨stripImagesAux s.data⟩

/-- One step of `new Map(sources.map(s => [s.uri, s]))`: setting a key
that is already present replaces its value in place (JS `Map` keeps the
first-insertion position, last-set value); a new key is appended. -/
def upsert (acc : List SourceRef) (s : SourceRef) : List SourceRef :=
  if acc.any (fun t => t.uri = s.uri) then
    acc.map (fun t => if t.uri = s.uri then s else t)
  else acc ++ [s]

/-- `Array.from(new Map(sources.map(s => [s.uri, s])).values())`. -/
def dedupByUri (sources : List SourceRef) : List SourceRef :=
  sources.foldl upsert []

/-- One grounding chunk of a streamed response
(`chunk.candidates[0].groundingMetadata.groundingChunks` entry): a web
citation, a maps citation carrying place answer sources
`(uri, displayName)`, or anything else. -/
inductive GroundingChunk where
  | web (uri title : String)
  | maps (placeAnswerSources : List (String × String))
  | other
deriving DecidableEq, Repr

/-- One streamed chunk: its text delta and its grounding chunks. -/
structure StreamChunk where
  text : String
  groundingChunks : List GroundingChunk
deriving DecidableEq, Repr

/-- The per-chunk citation extraction (App.tsx 624–635): web citations
directly, maps citations via their place answer sources, everything else
dropped; entries with an empty (falsy) `uri` are filtered out. -/
def chunkSources (chunk : StreamChunk) : List SourceRef :=
  (chunk.groundingChunks.flatMap (fun c =>
    match c with
    | .web uri title => [⟨uri, title⟩]
    | .maps places => places.map (fun p => (⟨p.1, p.2⟩ : SourceRef))
    | .other => [])).filter (fun s => s.uri != "")

/-- Accumulator state of the `for await` loop over the stream. -/
structure StreamState where
  fullResponse : String
  sources : List SourceRef
  messages : List ChatMessage
deriving DecidableEq, Repr

/-- One iteration of the stream loop: extend the text accumulator and the
collected sources, and rewrite the placeholder message (matched by id)
with the accumulated text, keeping `isLoading = true` and touching no
other field — in particular sources are not attached here. -/
def streamStep (botMessageId : Nat) (st : StreamState) (chunk : StreamChunk) : StreamState :=
  let full := st.fullResponse ++ chunk.text
  { fullResponse := full,
    sources := st.sources ++ chunkSources chunk,
    messages := st.messages.map (fun msg =>
      if msg.id = botMessageId then { msg with text := full, isLoading := true } else msg) }

/-- The whole stream loop. -/
def runStream (botMessageId : Nat) (st : StreamState) (chunks : List StreamChunk) : StreamState :=
  chunks.foldl (streamStep botMessageId) st

/-- Stream completion (App.tsx 640–644): strip inline image markdown and
trim, deduplicate the collected sources by URI, and replace the
placeholder with the final bot message (`isLoading = false`, sources
attached). -/
def completeStream (botMessageId : Nat) (st : StreamState) : List ChatMessage :=
  let cleanedText := jsTrim (stripImages st.fullResponse)
  let uniqueSources := dedupByUri st.sources
  let finalBotMessage : ChatMessage :=
    { id := botMessageId, text := cleanedText, sender := .bot,
      sources := some uniqueSources, isLoading := false }
  st.messages.map (fun msg => if msg.id = botMessageId then finalBotMessage else msg)

/-! ### Video generation (`generateVideo`, geminiService.ts 60–89;
`handleVideoGeneration`, App.tsx 660–679) -/

/-- One observation of the long-running video job
(`operation.done` / `operation.response?.generatedVideos?.[0]?.video?.uri`). -/
structure VideoOp where
  done : Bool
  resultUri : Option String
deriving DecidableEq, Repr

/-- The poll loop `while (!operation.done) { wait; operation = re-check }`,
over the sequence of observations the backend will return: the first
observation with `done = true`, or `none` if the modelled observation
sequence is exhausted first (the source loop would still be polling). -/
def pollVideo : VideoOp → List VideoOp → Option VideoOp
  | op, ops =>
    if op.done then some op
    else
      match ops with
      | [] => none
      | o :: rest => pollVideo o rest

/-- `generateVideo` from `geminiService.ts`: poll until done; if the
completed operation carries no result URI, throw
`Video generation completed but no download link was found.`; otherwise
return the URI with the API key appended.  `none` models a poll loop
that has not yet terminated within the observation sequence. -/
def generateVideo (apiKey : String) (first : VideoOp) (later : List VideoOp) :
    Option (Except String String) :=
  match pollVideo first later with
  | none => none
  | some operation =>
    match operation.resultUri with
    | some downloadLink => some (.ok (downloadLink ++ "&key=" ++ apiKey))
    | none => some (.error "Video generation completed but no download link was found.")

/-- The placeholder bot message of `handleVideoGeneration`. -/
def videoPlaceholder (botMessageId : Nat) : ChatMessage :=
  { id := botMessageId, text := "", sender := .bot, isLoading := true,
    videoState := some .generating }

/-- Synchronous part of `handleVideoGeneration`: append the tagged user
message and the `videoState = generating` loading placeholder. -/
def handleVideoGenerationStart (now : Nat) (prev : List ChatMessage)
    (file : UploadedFile) (prompt : String) : List ChatMessage :=
  let userMessage : ChatMessage :=
    { id := now, text := "(Video Prompt: " ++ prompt ++ ")", sender := .user,
      files := [file] }
  welcomeCollapse prev [userMessage, videoPlaceholder (now + 1)]

/-- Resolution of the video placeholder: on success replace it with the
`videoState = done` message carrying the URL; on an error replace its
text with the error-derived failure notice and set `videoState = failed`. -/
def resolveVideo (botMessageId : Nat) (result : Except String String)
    (msgs : List ChatMessage) : List ChatMessage :=
  match result with
  | .ok videoUri =>
    msgs.map (fun msg =>
      if msg.id = botMessageId then
        { id := botMessageId, text := "Here is the generated video:", sender := .bot,
          isLoading := false, videoState := some .done, videoUrl := some videoUri }
      else msg)
  | .error errorMessage =>
    msgs.map (fun msg =>
      if msg.id = botMessageId then
        { msg with
          text := "Sorry, I couldn\x27t generate the video. Error: " ++ errorMessage,
          isLoading := false, videoState := some .failed }
      else msg)

/-! ### Live-audio playback scheduling (LiveChatView.tsx `onmessage`) -/

/-- The playback-scheduling state of the live audio session:
`nextStartTimeRef.current` and the tracked set of scheduled/playing
buffer sources (`sourcesRef.current`), identified by ids.  Times are
rationals (the audio clock is a nonnegative real; no irrational values
arise in the scheduling arithmetic). -/
structure LiveAudioState where
  nextStartTime : ℚ
  sources : List Nat
deriving DecidableEq, Repr

/-- One arriving audio clip: the output context's `currentTime` when it
arrives, the decoded buffer's duration, and an id for the created source
node. -/
structure AudioArrival where
  currentTime : ℚ
  duration : ℚ
  sourceId : Nat
deriving DecidableEq, Repr, Inhabited

/-- Audio-payload handling in `onmessage` (LiveChatView.tsx 202–222):
`nextStartTime := max(nextStartTime, currentTime)`; the clip starts at
that value; `nextStartTime` then advances by the clip's duration and the
source joins the tracked set.  Returns the effective start time and the
new state. -/
def scheduleClip (st : LiveAudioState) (arrival : AudioArrival) : ℚ × LiveAudioState :=
  let start := max st.nextStartTime arrival.currentTime
  (start,
   { nextStartTime := start + arrival.duration,
     sources := st.sources ++ [arrival.sourceId] })

/-- Interruption handling in `onmessage` (LiveChatView.tsx 225–232):
stop every tracked source, remove them all from the tracked set, and
reset `nextStartTime` to zero.  Returns the list of sources stopped and
the new state. -/
def handleInterruption (st : LiveAudioState) : List Nat × LiveAudioState :=
  (st.sources, { nextStartTime := 0, sources := [] })

/-- The effective start times of a sequence of clips arriving in order
with no interruption in between. -/
def scheduleStarts (st : LiveAudioState) : List AudioArrival → List ℚ
  | [] => []
  | a :: rest =>
    let p := scheduleClip st a
    p.1 :: scheduleStarts p.2 rest

/-! ### Live-audio base64 codec (LiveChatView.tsx `encode` / `decode`) -/

/-- The base64 alphabet used by `btoa`/`atob`. -/
def b64Alphabet : List Char :=
  "ABCDEFGHIJKLMNOPQRSTUVWXYZabcdefghijklmnopqrstuvwxyz0123456789+/".data

/-- The base64 digit for a sextet. -/
def b64Char (n : Nat) : Char := b64Alphabet.getD n 'A'

/-- The sextet of a base64 digit (the inverse lookup `atob` performs). -/
def b64Index (c : Char) : Nat := b64Alphabet.indexOf c

/-- `encode` from LiveChatView.tsx: builds the binary string whose
character codes are the bytes and applies `btoa`.  Since
`String.fromCharCode` is the identity embedding of byte values 0–255
into code units, the composite is exactly base64 of the byte sequence,
modelled here on byte values (`Nat`s below 256): groups of three bytes
become four digits, a two-byte remainder three digits and `=`, a
one-byte remainder two digits and `==`. -/
def encode : List Nat → List Char
  | [] => []
  | [a] => [b64Char (a / 4), b64Char (a % 4 * 16), '=', '=']
  | [a, b] => [b64Char (a / 4), b64Char (a % 4 * 16 + b / 16), b64Char (b % 16 * 4), '=']
  | a :: b :: c :: rest =>
    b64Char (a / 4) :: b64Char (a % 4 * 16 + b / 16) ::
    b64Char (b % 16 * 4 + c / 64) :: b64Char (c % 64) :: encode rest

/-- `decode` from LiveChatView.tsx: applies `atob` and reads the
character codes back into bytes.  On well-formed base64 (every output of
`encode`) this reverses the grouping above; the catch-all branch stands
in for the domain where `atob` throws. -/
def decode : List Char → List Nat
  | c1 :: c2 :: c3 :: c4 :: rest =>
    if c3 = '=' then [b64Index c1 * 4 + b64Index c2 / 16]
    else if c4 = '=' then
      [b64Index c1 * 4 + b64Index c2 / 16, b64Index c2 % 16 * 16 + b64Index c3 / 4]
    else
      (b64Index c1 * 4 + b64Index c2 / 16) ::
      (b64Index c2 % 16 * 16 + b64Index c3 / 4) ::
      (b64Index c3 % 4 * 64 + b64Index c4) :: decode rest
  | _ => []

/-! ## Helper lemmas -/

theorem b64Index_b64Char : ∀ n : Fin 64, b64Index (b64Char n.val) = n.val := by decide

theorem b64Char_ne_pad : ∀ n : Fin 64, b64Char n.val ≠ '=' := by decide

theorem b64Index_b64Char_lt (n : Nat) (h : n < 64) : b64Index (b64Char n) = n :=
  b64Index_b64Char ⟨n, h⟩

theorem b64Char_ne_pad_lt (n : Nat) (h : n < 64) : b64Char n ≠ '=' :=
  b64Char_ne_pad ⟨n, h⟩

theorem decode_encode_aux :
    ∀ (bs : List Nat), (∀ x ∈ bs, x < 256) → decode (encode bs) = bs := by
  intro bs
  induction bs using encode.induct with
  | case1 => intro _; rfl
  | case2 a =>
    intro h
    have ha : a < 256 := h a (by simp)
    have e1 := b64Index_b64Char_lt (a / 4) (by omega)
    have e2 := b64Index_b64Char_lt (a % 4 * 16) (by omega)
    simp [encode, decode, e1, e2]
    omega
  | case3 a b =>
    intro h
    have ha : a < 256 := h a (by simp)
    have hb : b < 256 := h b (by simp)
    have e1 := b64Index_b64Char_lt (a / 4) (by omega)
    have e2 := b64Index_b64Char_lt (a % 4 * 16 + b / 16) (by omega)
    have e3 := b64Index_b64Char_lt (b % 16 * 4) (by omega)
    have n3 := b64Char_ne_pad_lt (b % 16 * 4) (by omega)
    simp [encode, decode, e1, e2, e3, n3]
    omega
  | case4 a b c rest ih =>
    intro h
    have ha : a < 256 := h a (by simp)
    have hb : b < 256 := h b (by simp)
    have hc : c < 256 := h c (by simp)
    have e1 := b64Index_b64Char_lt (a / 4) (by omega)
    have e2 := b64Index_b64Char_lt (a % 4 * 16 + b / 16) (by omega)
    have e3 := b64Index_b64Char_lt (b % 16 * 4 + c / 64) (by omega)
    have e4 := b64Index_b64Char_lt (c % 64) (by omega)
    have n3 := b64Char_ne_pad_lt (b % 16 * 4 + c / 64) (by omega)
    have n4 := b64Char_ne_pad_lt (c % 64) (by omega)
    have hrest := ih (fun x hx => h x (by simp [hx]))
    simp [encode, decode, e1, e2, e3, e4, n3, n4, hrest]
    omega

/-! ## Claim theorems -/

/-- C10 — `updateSessionMessages` changes only the messages of the
session whose id matches: the list's length and order are preserved;
along every index the matching session keeps its id, title and language
code and gets `f` applied to its messages, every other session is
unchanged, and when no session carries the given id the list is returned
unchanged. -/
theorem updateSessionMessages_frame (sessions : List ChatSession) (sessionId : String)
    (f : List ChatMessage → List ChatMessage) :
    (updateSessionMessages sessions sessionId f).length = sessions.length
    ∧ (∀ i s, sessions.get? i = some s →
        (updateSessionMessages sessions sessionId f).get? i =
          some (if s.id = sessionId then { s with messages := f s.messages } else s))
    ∧ (∀ i s s₂, sessions.get? i = some s →
        (updateSessionMessages sessions sessionId f).get? i = some s₂ →
        s₂.id = s.id ∧ s₂.title = s.title ∧ s₂.languageCode = s.languageCode
        ∧ (s.id ≠ sessionId → s₂ = s) ∧ (s.id = sessionId → s₂.messages = f s.messages))
    ∧ ((∀ s ∈ sessions, s.id ≠ sessionId) →
        updateSessionMessages sessions sessionId f = sessions) := by
  have hmap : ∀ i s, sessions.get? i = some s →
      (updateSessionMessages sessions sessionId f).get? i =
        some (if s.id = sessionId then { s with messages := f s.messages } else s) := by
    intro i s hs
    rw [List.get?_eq_getElem?] at hs
    rw [List.get?_eq_getElem?]
    simp [updateSessionMessages, List.getElem?_map, hs]
  refine ⟨by simp [updateSessionMessages], hmap, ?_, ?_⟩
  · intro i s s₂ hs hs₂
    rw [hmap i s hs] at hs₂
    injection hs₂ with hs₂
    subst hs₂
    by_cases hid : s.id = sessionId <;> simp [hid]
  · intro h
    unfold updateSessionMessages
    rw [List.map_congr_left, List.map_id]
    intro s hs
    simp [h s hs]

/-- C10 witness: on a concrete two-session list, updating a non-member id
leaves the list unchanged. -/
theorem updateSessionMessages_frame_witness :
    updateSessionMessages
      [⟨"a", "A", [], "en-US"⟩, ⟨"b", "B", [], "hi-IN"⟩] "c"
      (fun ms => ms ++ [{ id := 1, text := "x", sender := .bot }]) =
      [⟨"a", "A", [], "en-US"⟩, ⟨"b", "B", [], "hi-IN"⟩] :=
  (updateSessionMessages_frame _ _ _).2.2.2 (by decide)

/-- C9 — the live-audio base64 codec round-trips: decoding an encoding
recovers the byte sequence exactly, and therefore encoding is a
left-inverse on the image of `encode` (every base64 string produced from
a PCM frame decodes back to it, and re-encoding the decoding reproduces
the string). -/
theorem base64_roundtrip (bs : List Nat) (hb : ∀ x ∈ bs, x < 256) :
    decode (encode bs) = bs ∧ encode (decode (encode bs)) = encode bs := by
  have h := decode_encode_aux bs hb
  exact ⟨h, by rw [h]⟩

/-- C9 witness: the round trip at a concrete PCM-like byte sequence. -/
theorem base64_roundtrip_witness :
    decode (encode [0, 7, 127, 128, 200, 255, 1]) = [0, 7, 127, 128, 200, 255, 1]
    ∧ encode (decode (encode [0, 7, 127, 128, 200, 255, 1]))
        = encode [0, 7, 127, 128, 200, 255, 1] :=
  base64_roundtrip [0, 7, 127, 128, 200, 255, 1] (by decide)

/-- C7 — scheduled playback start times: each clip starts at
`max(nextStartTime, currentTime)` and advances `nextStartTime` by its
duration, so for clips arriving in order with no interruption,
`start(k+1) ≥ start(k) + d(k)`; and when the next clip arrives no later
than the previous clip ends (arrival faster than playback) the starts
are exactly back-to-back. -/
theorem audio_schedule_spec (st : LiveAudioState) (arrivals : List AudioArrival) :
    ∀ k, k + 1 < arrivals.length →
      (scheduleStarts st arrivals).getD (k + 1) 0 ≥
        (scheduleStarts st arrivals).getD k 0 + (arrivals.getD k default).duration
      ∧ ((arrivals.getD (k + 1) default).currentTime ≤
           (scheduleStarts st arrivals).getD k 0 + (arrivals.getD k default).duration →
         (scheduleStarts st arrivals).getD (k + 1) 0 =
           (scheduleStarts st arrivals).getD k 0 + (arrivals.getD k default).duration) := by
  induction arrivals generalizing st with
  | nil => intro k hk; simp at hk
  | cons a rest ih =>
    intro k hk
    match k, rest with
    | 0, b :: rest2 =>
      constructor
      · simp [scheduleStarts, scheduleClip]
      · intro hfast
        simp only [scheduleStarts, scheduleClip, List.getD_cons_succ,
          List.getD_cons_zero] at hfast ⊢
        exact max_eq_left hfast
    | k' + 1, b :: rest2 =>
      have := ih (scheduleClip st a).2 k' (by simpa using hk)
      simpa [scheduleStarts] using this

/-- C7 witness: three concrete clips arriving faster than playback are
scheduled with `start(1) = start(0) + d(0)` (back-to-back). -/
theorem audio_schedule_spec_witness :
    (scheduleStarts ⟨0, []⟩ [⟨0, 2, 1⟩, ⟨1, 3, 2⟩, ⟨2, 1, 3⟩]).getD 1 0 ≥
      (scheduleStarts ⟨0, []⟩ [⟨0, 2, 1⟩, ⟨1, 3, 2⟩, ⟨2, 1, 3⟩]).getD 0 0 +
        (([⟨0, 2, 1⟩, ⟨1, 3, 2⟩, ⟨2, 1, 3⟩] : List AudioArrival).getD 0 default).duration
    ∧ (scheduleStarts ⟨0, []⟩ [⟨0, 2, 1⟩, ⟨1, 3, 2⟩, ⟨2, 1, 3⟩]).getD 1 0 =
      (scheduleStarts ⟨0, []⟩ [⟨0, 2, 1⟩, ⟨1, 3, 2⟩, ⟨2, 1, 3⟩]).getD 0 0 +
        (([⟨0, 2, 1⟩, ⟨1, 3, 2⟩, ⟨2, 1, 3⟩] : List AudioArrival).getD 0 default).duration := by
  have h := audio_schedule_spec ⟨0, []⟩ [⟨0, 2, 1⟩, ⟨1, 3, 2⟩, ⟨2, 1, 3⟩] 0 (by decide)
  exact ⟨h.1, h.2 (by simp [scheduleStarts, scheduleClip])⟩

/-- C8 — an interruption signal stops every tracked clip, empties the
tracked source set, and resets the next scheduled start time to zero, so
the next clip arriving at (nonnegative) playback-clock time `t` starts
exactly at `t` rather than at the pre-interruption schedule. -/
theorem audio_interruption_spec (st : LiveAudioState) (a : AudioArrival)
    (ht : 0 ≤ a.currentTime) :
    (handleInterruption st).1 = st.sources
    ∧ (handleInterruption st).2.sources = []
    ∧ (handleInterruption st).2.nextStartTime = 0
    ∧ (scheduleClip (handleInterruption st).2 a).1 = a.currentTime := by
  refine ⟨rfl, rfl, rfl, ?_⟩
  simp [handleInterruption, scheduleClip, max_eq_right ht]

/-- C8 witness: a concrete interruption with a clip arriving afterwards. -/
theorem audio_interruption_spec_witness :
    (handleInterruption ⟨37, [1, 2, 3]⟩).1 = [1, 2, 3]
    ∧ (handleInterruption ⟨37, [1, 2, 3]⟩).2.sources = []
    ∧ (handleInterruption ⟨37, [1, 2, 3]⟩).2.nextStartTime = 0
    ∧ (scheduleClip (handleInterruption ⟨37, [1, 2, 3]⟩).2 ⟨5, 2, 9⟩).1 = (5 : ℚ) :=
  audio_interruption_spec ⟨37, [1, 2, 3]⟩ ⟨5, 2, 9⟩ (by simp)

theorem mem_welcomeCollapse_new {x : ChatMessage} (prev newMsgs : List ChatMessage)
    (hx : x ∈ newMsgs) : x ∈ welcomeCollapse prev newMsgs := by
  match prev with
  | [] => simpa [welcomeCollapse] using hx
  | [m] => by_cases h : m.isWelcome = true <;> simp [welcomeCollapse, h, hx]
  | m :: m2 :: rest => simp [welcomeCollapse, hx]

/-- C4 — video placeholder lifecycle: the placeholder starts in
`videoState = generating`; once `generateVideo` returns a result (success
or raised error), resolution moves every message carrying the placeholder
id to `done` or to `failed` — never back to `generating`; and when the
poll loop observes the job done but the completion carries no result URI,
`generateVideo` raises
`Video generation completed but no download link was found.` and the
placeholder resolves to `videoState = failed` with the error-derived
text, never to `done`. -/
theorem video_state_spec (apiKey : String) (now : Nat) (prev : List ChatMessage)
    (file : UploadedFile) (prompt : String) (first : VideoOp) (later : List VideoOp)
    (r : Except String String) (hr : generateVideo apiKey first later = some r) :
    (∃ m ∈ handleVideoGenerationStart now prev file prompt,
        m.id = now + 1 ∧ m.videoState = some .generating ∧ m.isLoading = true)
    ∧ (∀ m ∈ resolveVideo (now + 1) r (handleVideoGenerationStart now prev file prompt),
        m.id = now + 1 → m.videoState = some .done ∨ m.videoState = some .failed)
    ∧ (∀ op, pollVideo first later = some op → op.resultUri = none →
        r = .error "Video generation completed but no download link was found."
        ∧ (∀ m ∈ resolveVideo (now + 1) r (handleVideoGenerationStart now prev file prompt),
            m.id = now + 1 →
              m.videoState = some .failed
              ∧ m.text = "Sorry, I couldn\x27t generate the video. Error: " ++
                  "Video generation completed but no download link was found.")) := by
  have hforward : ∀ (r2 : Except String String),
      ∀ m ∈ resolveVideo (now + 1) r2 (handleVideoGenerationStart now prev file prompt),
        m.id = now + 1 →
          (∀ uri, r2 = .ok uri → m.videoState = some .done)
          ∧ (∀ e, r2 = .error e →
              m.videoState = some .failed
              ∧ m.text = "Sorry, I couldn\x27t generate the video. Error: " ++ e) := by
    intro r2 m hm hid
    cases r2 with
    | ok uri =>
      simp only [resolveVideo, List.mem_map] at hm
      obtain ⟨m0, hm0, rfl⟩ := hm
      by_cases h0 : m0.id = now + 1
      · constructor
        · intro uri2 huri
          injection huri with huri
          subst huri
          simp [h0]
        · intro e he; cases he
      · rw [if_neg h0] at hid
        exact absurd hid h0
    | error e =>
      simp only [resolveVideo, List.mem_map] at hm
      obtain ⟨m0, hm0, rfl⟩ := hm
      by_cases h0 : m0.id = now + 1
      · constructor
        · intro uri2 huri; cases huri
        · intro e2 he
          injection he with he
          subst he
          simp [h0]
      · rw [if_neg h0] at hid
        exact absurd hid h0
  refine ⟨?_, ?_, ?_⟩
  · refine ⟨videoPlaceholder (now + 1), ?_, rfl, rfl, rfl⟩
    exact mem_welcomeCollapse_new _ _ (by simp [handleVideoGenerationStart])
  · intro m hm hid
    cases r with
    | ok uri => exact Or.inl (((hforward _ m hm hid).1) uri rfl)
    | error e => exact Or.inr ((((hforward _ m hm hid).2) e rfl).1)
  · intro op hop huri
    have hrerr : r = .error "Video generation completed but no download link was found." := by
      unfold generateVideo at hr
      rw [hop] at hr
      simp only [huri] at hr
      injection hr with hr
      exact hr.symm
    refine ⟨hrerr, ?_⟩
    intro m hm hid
    exact ((hforward r m hm hid).2) _ hrerr

/-- C4 witness: a concrete job that completes with no result URI. -/
theorem video_state_spec_witness :
    (∃ m ∈ handleVideoGenerationStart 10 [] ⟨"i.png", "image/png", "D"⟩ "p",
        m.id = 11 ∧ m.videoState = some VideoState.generating ∧ m.isLoading = true)
    ∧ (∀ m ∈ resolveVideo 11
          (Except.error "Video generation completed but no download link was found.")
          (handleVideoGenerationStart 10 [] ⟨"i.png", "image/png", "D"⟩ "p"),
        m.id = 11 → m.videoState = some VideoState.done ∨ m.videoState = some VideoState.failed) := by
  have h := video_state_spec "KEY" 10 [] ⟨"i.png", "image/png", "D"⟩ "p"
      ⟨false, none⟩ [⟨true, none⟩]
      (Except.error "Video generation completed but no download link was found.")
      rfl
  exact ⟨h.1, h.2.1⟩

/-! ### Deduplication lemmas (C3) -/

theorem dedupByUri_append_singleton (l : List SourceRef) (x : SourceRef) :
    dedupByUri (l ++ [x]) = upsert (dedupByUri l) x := by
  simp [dedupByUri, List.foldl_append]

theorem upsert_uris (acc : List SourceRef) (x : SourceRef) :
    (upsert acc x).map (fun s => s.uri) =
      if acc.any (fun t => t.uri = x.uri) then acc.map (fun s => s.uri)
      else acc.map (fun s => s.uri) ++ [x.uri] := by
  unfold upsert
  split
  · rw [List.map_map]
    apply List.map_congr_left
    intro t _
    by_cases h2 : t.uri = x.uri <;> simp [h2]
  · simp

theorem dedupByUri_uris_nodup (l : List SourceRef) :
    ((dedupByUri l).map (fun s => s.uri)).Nodup := by
  induction l using List.reverseRecOn with
  | nil => simp [dedupByUri]
  | append_singleton l x ih =>
    rw [dedupByUri_append_singleton, upsert_uris]
    split
    · exact ih
    · rename_i h
      rw [List.nodup_append]
      refine ⟨ih, by simp, ?_⟩
      intro u hu
      simp only [List.mem_map] at hu
      obtain ⟨t, ht, rfl⟩ := hu
      simp only [List.mem_singleton]
      intro hx
      simp only [List.any_eq_true, decide_eq_true_eq] at h
      exact h ⟨t, ht, hx⟩

theorem mem_upsert {s : SourceRef} {acc : List SourceRef} {x : SourceRef}
    (hs : s ∈ upsert acc x) : s ∈ acc ∨ s = x := by
  unfold upsert at hs
  split at hs
  · obtain ⟨t, ht, rfl⟩ := List.mem_map.1 hs
    by_cases h2 : t.uri = x.uri
    · simp [h2]
    · simp [h2, ht]
  · rcases List.mem_append.1 hs with h | h
    · exact Or.inl h
    · exact Or.inr (by simpa using h)

theorem mem_upsert_self (acc : List SourceRef) (x : SourceRef) : x ∈ upsert acc x := by
  unfold upsert
  split
  · rename_i h
    simp only [List.any_eq_true, decide_eq_true_eq] at h
    obtain ⟨t, ht, htu⟩ := h
    exact List.mem_map.2 ⟨t, ht, by simp [htu]⟩
  · simp

theorem mem_upsert_of_ne {t : SourceRef} {acc : List SourceRef} {y : SourceRef}
    (ht : t ∈ acc) (hne : t.uri ≠ y.uri) : t ∈ upsert acc y := by
  unfold upsert
  split
  · exact List.mem_map.2 ⟨t, ht, by simp [hne]⟩
  · simp [ht]

theorem dedupByUri_subset (l : List SourceRef) : ∀ s ∈ dedupByUri l, s ∈ l := by
  induction l using List.reverseRecOn with
  | nil => simp [dedupByUri]
  | append_singleton l x ih =>
    intro s hs
    rw [dedupByUri_append_singleton] at hs
    rcases mem_upsert hs with h | rfl
    · exact List.mem_append.2 (Or.inl (ih s h))
    · simp

theorem dedupByUri_last_mem :
    ∀ (l₂ l₁ : List SourceRef) (t : SourceRef), (∀ u ∈ l₂, u.uri ≠ t.uri) →
      t ∈ dedupByUri (l₁ ++ t :: l₂) := by
  intro l₂
  induction l₂ using List.reverseRecOn with
  | nil =>
    intro l₁ t _
    have h1 : l₁ ++ t :: ([] : List SourceRef) = l₁ ++ [t] := rfl
    rw [h1, dedupByUri_append_singleton]
    exact mem_upsert_self _ _
  | append_singleton l₂ y ih =>
    intro l₁ t hne
    have h1 : l₁ ++ t :: (l₂ ++ [y]) = (l₁ ++ t :: l₂) ++ [y] := by simp
    rw [h1, dedupByUri_append_singleton]
    refine mem_upsert_of_ne (ih l₁ t (fun u hu => hne u (by simp [hu]))) ?_
    exact fun h => hne y (by simp) h.symm

theorem dedupByUri_covers (l : List SourceRef) :
    ∀ t ∈ l, ∃ s ∈ dedupByUri l, s.uri = t.uri := by
  induction l using List.reverseRecOn with
  | nil => simp
  | append_singleton l x ih =>
    intro t ht
    rw [dedupByUri_append_singleton]
    rcases List.mem_append.1 ht with h | h
    · obtain ⟨s, hs, hsu⟩ := ih t h
      by_cases h2 : s.uri = x.uri
      · exact ⟨x, mem_upsert_self _ _, by rw [← h2, hsu]⟩
      · exact ⟨s, mem_upsert_of_ne hs h2, hsu⟩
    · rw [List.mem_singleton] at h
      subst h
      exact ⟨t, mem_upsert_self _ _, rfl⟩

/-! ### Stream-fold lemmas (C3) -/

/-- The concatenation of the chunk text deltas (what `fullResponse`
accumulates over the whole stream). -/
def chunksText : List StreamChunk → String
  | [] => ""
  | c :: rest => c.text ++ chunksText rest

/-- The concatenation of the extracted per-chunk citations (what
`sources` accumulates over the whole stream). -/
def chunksSources : List StreamChunk → List SourceRef
  | [] => []
  | c :: rest => chunkSources c ++ chunksSources rest

theorem runStream_fullResponse (botId : Nat) :
    ∀ (chunks : List StreamChunk) (st : StreamState),
      (runStream botId st chunks).fullResponse = st.fullResponse ++ chunksText chunks := by
  intro chunks
  induction chunks with
  | nil => intro st; simp [runStream, chunksText]
  | cons c rest ih =>
    intro st
    show (runStream botId (streamStep botId st c) rest).fullResponse = _
    rw [ih]
    simp [streamStep, chunksText, String.append_assoc]

theorem runStream_sources (botId : Nat) :
    ∀ (chunks : List StreamChunk) (st : StreamState),
      (runStream botId st chunks).sources = st.sources ++ chunksSources chunks := by
  intro chunks
  induction chunks with
  | nil => intro st; simp [runStream, chunksSources]
  | cons c rest ih =>
    intro st
    show (runStream botId (streamStep botId st c) rest).sources = _
    rw [ih]
    simp [streamStep, chunksSources]

theorem runStream_messages_shape (botId : Nat) :
    ∀ (chunks : List StreamChunk) (st : StreamState) (pre : List ChatMessage)
      (ph : ChatMessage),
      st.messages = pre ++ [ph] → (∀ m ∈ pre, m.id ≠ botId) → ph.id = botId →
      ph.isLoading = true →
      ∃ ph₂, (runStream botId st chunks).messages = pre ++ [ph₂] ∧ ph₂.id = botId
        ∧ ph₂.sources = ph.sources ∧ ph₂.isLoading = true := by
  intro chunks
  induction chunks with
  | nil =>
    intro st pre ph hmsgs hpre hid hload
    exact ⟨ph, hmsgs, hid, rfl, hload⟩
  | cons c rest ih =>
    intro st pre ph hmsgs hpre hid hload
    have hstep : (streamStep botId st c).messages =
        pre ++ [{ ph with text := st.fullResponse ++ c.text, isLoading := true }] := by
      simp only [streamStep, hmsgs, List.map_append, List.map_cons, List.map_nil]
      congr 1
      · apply List.map_congr_left ?_ |>.trans (List.map_id pre)
        intro m hm
        simp [hpre m hm]
      · simp [hid]
    obtain ⟨ph₂, h1, h2, h3, h4⟩ := ih (streamStep botId st c) pre
      { ph with text := st.fullResponse ++ c.text, isLoading := true }
      hstep hpre hid rfl
    exact ⟨ph₂, h1, h2, h3, h4⟩

/-- C3 — stream completion: for a stream that completes without error,
the final persisted messages replace the placeholder with a bot message
whose text is the accumulated chunk text with inline image markdown
stripped and trimmed, whose sources are the chunk-collected citations
deduplicated by URI, and whose loading flag is false; the deduplicated
sources carry pairwise-distinct URIs, are drawn from the collected
citations, keep the last-seen entry of every URI and cover every
collected URI; and on every prefix of the stream the placeholder still
carries no sources and `isLoading = true` (sources are attached only at
completion). -/
theorem stream_completion_spec (botId : Nat) (pre : List ChatMessage) (ph : ChatMessage)
    (chunks : List StreamChunk)
    (hpre : ∀ m ∈ pre, m.id ≠ botId) (hid : ph.id = botId)
    (hload : ph.isLoading = true) (hsrc : ph.sources = none) :
    completeStream botId (runStream botId ⟨"", [], pre ++ [ph]⟩ chunks) =
      pre ++ [{ id := botId, text := jsTrim (stripImages (chunksText chunks)),
                sender := .bot, sources := some (dedupByUri (chunksSources chunks)),
                isLoading := false }]
    ∧ ((dedupByUri (chunksSources chunks)).map (fun s => s.uri)).Nodup
    ∧ (∀ s ∈ dedupByUri (chunksSources chunks), s ∈ chunksSources chunks)
    ∧ (∀ l₁ (t : SourceRef) l₂, chunksSources chunks = l₁ ++ t :: l₂ →
        (∀ u ∈ l₂, u.uri ≠ t.uri) → t ∈ dedupByUri (chunksSources chunks))
    ∧ (∀ t ∈ chunksSources chunks, ∃ s ∈ dedupByUri (chunksSources chunks), s.uri = t.uri)
    ∧ (∀ p, p <+: chunks →
        ∃ ph₂, (runStream botId ⟨"", [], pre ++ [ph]⟩ p).messages = pre ++ [ph₂]
          ∧ ph₂.sources = none ∧ ph₂.isLoading = true) := by
  refine ⟨?_, dedupByUri_uris_nodup _, dedupByUri_subset _, ?_, dedupByUri_covers _, ?_⟩
  · obtain ⟨ph₂, h1, h2, h3, h4⟩ :=
      runStream_messages_shape botId chunks ⟨"", [], pre ++ [ph]⟩ pre ph rfl hpre hid hload
    unfold completeStream
    rw [h1, runStream_fullResponse, runStream_sources]
    simp only [List.map_append, List.map_cons, List.map_nil]
    congr 1
    · apply List.map_congr_left ?_ |>.trans (List.map_id pre)
      intro m hm
      simp [hpre m hm]
    · simp [h2]
  · intro l₁ t l₂ hsplit hlast
    rw [hsplit]
    exact dedupByUri_last_mem l₂ l₁ t hlast
  · intro p hp
    obtain ⟨ph₂, h1, h2, h3, h4⟩ :=
      runStream_messages_shape botId p ⟨"", [], pre ++ [ph]⟩ pre ph rfl hpre hid hload
    exact ⟨ph₂, h1, by rw [h3, hsrc], h4⟩

/-- C3 witness: a concrete two-chunk stream with a duplicated citation
URI and inline image markdown in the text. -/
theorem stream_completion_spec_witness :
    completeStream 5
      (runStream 5
        ⟨"", [], [] ++ [{ id := 5, text := "", sender := .bot, isLoading := true }]⟩
        [⟨"Hello ![i](u)", [.web "a" "t1"]⟩, ⟨" world", [.web "a" "t2", .web "b" "t3"]⟩]) =
      [] ++ [{ id := 5,
               text := jsTrim (stripImages (chunksText
                 [⟨"Hello ![i](u)", [.web "a" "t1"]⟩, ⟨" world", [.web "a" "t2", .web "b" "t3"]⟩])),
               sender := .bot,
               sources := some (dedupByUri (chunksSources
                 [⟨"Hello ![i](u)", [.web "a" "t1"]⟩, ⟨" world", [.web "a" "t2", .web "b" "t3"]⟩])),
               isLoading := false }] :=
  (stream_completion_spec 5 [] { id := 5, text := "", sender := .bot, isLoading := true }
    [⟨"Hello ![i](u)", [.web "a" "t1"]⟩, ⟨" world", [.web "a" "t2", .web "b" "t3"]⟩]
    (by simp) rfl rfl rfl).1


/-! ### Router branch analysis (C1, C2, C5, C6) -/

theorem editOrLater_branches (now : Nat) (session : ChatSession) (text : String)
    (files : List UploadedFile) :
    (∃ f, files = [f] ∧ (f.mimeType.startsWith "image/" && jsTrim text != "") = true
      ∧ editOrLater now session none text files = imageEditOutcome now session none text f)
    ∨ (condEdit text files = false ∧ condImageGen text files = true
      ∧ editOrLater now session none text files = imageGenIntentOutcome now session none text)
    ∨ (condEdit text files = false ∧ condImageGen text files = false
      ∧ condTrip text files = true
      ∧ editOrLater now session none text files = tripPlanOutcome now session none text)
    ∨ (condEdit text files = false ∧ condImageGen text files = false
      ∧ condTrip text files = false
      ∧ editOrLater now session none text files =
          defaultChatOutcome now session none text files) := by
  have hrest : ∀ (hed : condEdit text files = false),
      (condEdit text files = false ∧ condImageGen text files = true
        ∧ imageGenOrLater now session none text files = imageGenIntentOutcome now session none text)
      ∨ (condEdit text files = false ∧ condImageGen text files = false
        ∧ condTrip text files = true
        ∧ imageGenOrLater now session none text files = tripPlanOutcome now session none text)
      ∨ (condEdit text files = false ∧ condImageGen text files = false
        ∧ condTrip text files = false
        ∧ imageGenOrLater now session none text files =
            defaultChatOutcome now session none text files) := by
    intro hed
    by_cases hg : condImageGen text files = true
    · refine Or.inl ⟨hed, hg, ?_⟩
      unfold imageGenOrLater
      rw [if_pos (by simpa [condImageGen] using hg)]
    · have hg2 : condImageGen text files = false := by simpa using hg
      by_cases ht : condTrip text files = true
      · refine Or.inr (Or.inl ⟨hed, hg2, ht, ?_⟩)
        unfold imageGenOrLater tripOrLater
        rw [if_neg (by simpa [condImageGen] using hg2), if_pos (by simpa [condTrip] using ht)]
      · have ht2 : condTrip text files = false := by simpa using ht
        refine Or.inr (Or.inr ⟨hed, hg2, ht2, ?_⟩)
        unfold imageGenOrLater tripOrLater
        rw [if_neg (by simpa [condImageGen] using hg2), if_neg (by simpa [condTrip] using ht2)]
  match files with
  | [f] =>
    by_cases he : (f.mimeType.startsWith "image/" && jsTrim text != "") = true
    · refine Or.inl ⟨f, rfl, he, ?_⟩
      simp only [editOrLater]
      rw [if_pos he]
    · have hed : condEdit text [f] = false := by
        simp only [condEdit]
        simpa using he
      have heq : editOrLater now session none text [f] = imageGenOrLater now session none text [f] := by
        simp only [editOrLater]
        rw [if_neg he]
      rw [heq]
      exact Or.inr (hrest hed)
  | [] =>
    have hed : condEdit text [] = false := by simp [condEdit]
    have : editOrLater now session none text [] = imageGenOrLater now session none text [] := rfl
    rw [this]
    exact Or.inr (hrest hed)
  | f1 :: f2 :: rest2 =>
    have hed : condEdit text (f1 :: f2 :: rest2) = false := by simp [condEdit]
    have : editOrLater now session none text (f1 :: f2 :: rest2) =
        imageGenOrLater now session none text (f1 :: f2 :: rest2) := rfl
    rw [this]
    exact Or.inr (hrest hed)


theorem handleSendMessage_branches (now : Nat) (session : ChatSession)
    (pending : Option String) (text : String) (files : List UploadedFile)
    (hne : ¬(jsTrim text = "" ∧ files = [])) :
    (∃ t, langSwitchTarget session text = some t
      ∧ handleSendMessage now session pending text files =
          langSwitchOutcome now session pending t text)
    ∨ (langSwitchTarget session text = none
      ∧ ∃ p, pending = some p ∧ ART_STYLES.contains text = true
      ∧ handleSendMessage now session pending text files =
          imageGenerationOutcome now session none p text)
    ∨ (langSwitchTarget session text = none ∧ condStyle pending text = false
      ∧ handleSendMessage now session pending text files =
          editOrLater now session none text files) := by
  unfold handleSendMessage
  rw [if_neg hne]
  have hlang : (match langSwitchMatch text with
      | some requestedLangName =>
        match LANGUAGES.find? (fun l => jsToLower l.name = requestedLangName) with
        | some targetLanguage =>
          if targetLanguage.code ≠ session.languageCode then
            some (langSwitchOutcome now session pending targetLanguage text)
          else none
        | none => none
      | none => none) =
      (langSwitchTarget session text).map
        (fun t => langSwitchOutcome now session pending t text) := by
    unfold langSwitchTarget
    cases hm : langSwitchMatch text with
    | none => rfl
    | some nm =>
      simp only [Option.map]
      cases hf : LANGUAGES.find? (fun l => jsToLower l.name = nm) with
      | none => simp [hf]
      | some t =>
        by_cases hc : t.code ≠ session.languageCode
        · simp [hf, hc]
        · simp [hf, hc]
  rw [hlang]
  cases hl : langSwitchTarget session text with
  | some t => exact Or.inl ⟨t, rfl, by simp⟩
  | none =>
    cases hp : pending with
    | some p =>
      by_cases hs : ART_STYLES.contains text = true
      · refine Or.inr (Or.inl ⟨rfl, p, rfl, hs, ?_⟩)
        simp only [Option.map_none']
        rw [if_pos hs]
      · have hs2 : ART_STYLES.contains text = false := by simpa using hs
        refine Or.inr (Or.inr ⟨rfl, by simpa [condStyle] using hs2, ?_⟩)
        simp only [Option.map_none']
        rw [if_neg hs]
    | none =>
      refine Or.inr (Or.inr ⟨rfl, by simp [condStyle], ?_⟩)
      simp only [Option.map_none']


/-- C2 (amended) — for every submission whose text matches the
language-switch phrase with a supported language differing from the
session's current language: the user message is appended (after dropping
the welcome placeholder), the session's language code is set to the
matched language's code, and a canned English confirmation naming the new
language (`Certainly! I will now respond in <name>.`) is appended; no
backend call is made and no loading placeholder is created. -/
theorem lang_switch_spec (now : Nat) (session : ChatSession) (pending : Option String)
    (text : String) (files : List UploadedFile) (t : Language)
    (hmatch : langSwitchTarget session text = some t)
    (hne : ¬(jsTrim text = "" ∧ files = [])) :
    (handleSendMessage now session pending text files).action = .langSwitch t
    ∧ (handleSendMessage now session pending text files).languageCode = t.code
    ∧ (handleSendMessage now session pending text files).messages =
        (session.messages.filter (fun m => !m.isWelcome))
        ++ [{ id := now, text := text, sender := .user },
            { id := now + 1,
              text := "Certainly! I will now respond in " ++ t.name ++ ".", sender := .bot }]
    ∧ (handleSendMessage now session pending text files).backendCalls = []
    ∧ (handleSendMessage now session pending text files).addedLoadingPlaceholder = false := by
  rcases handleSendMessage_branches now session pending text files hne with
    ⟨t2, ht2, heq⟩ | ⟨hnone, _⟩ | ⟨hnone, _⟩
  · rw [hmatch] at ht2
    injection ht2 with ht2
    subst ht2
    rw [heq]
    simp [langSwitchOutcome, idleOutcome]
  · rw [hmatch] at hnone; cases hnone
  · rw [hmatch] at hnone; cases hnone

/-- C5 — for every submission with no higher-priority rule matching whose
text matches the image-request pattern and not the meta-question
exclusion, with no files: the pending image prompt is set to the
submitted text, the user message and a bot message offering the art-style
list as suggestions are appended (after dropping the welcome
placeholder), and no backend call of any kind is made at that point. -/
theorem image_gen_intent_spec (now : Nat) (session : ChatSession) (pending : Option String)
    (text : String) (files : List UploadedFile)
    (hlang : langSwitchTarget session text = none)
    (hstyle : condStyle pending text = false)
    (hgen : condImageGen text files = true)
    (hne : ¬(jsTrim text = "" ∧ files = [])) :
    (handleSendMessage now session pending text files).action = .imageGenIntent text
    ∧ (handleSendMessage now session pending text files).pendingAfter = some text
    ∧ (handleSendMessage now session pending text files).messages =
        (session.messages.filter (fun m => !m.isWelcome))
        ++ [{ id := now, text := text, sender := .user },
            { id := now + 1, text := "Sounds creative! Which art style would you like?",
              sender := .bot, suggestions := ART_STYLES }]
    ∧ (handleSendMessage now session pending text files).backendCalls = []
    ∧ (handleSendMessage now session pending text files).addedLoadingPlaceholder = false := by
  rcases handleSendMessage_branches now session pending text files hne with
    ⟨t, ht, _⟩ | ⟨_, p, hp, hs, _⟩ | ⟨_, _, heq⟩
  · rw [hlang] at ht; cases ht
  · rw [hp] at hstyle
    simp [condStyle] at hstyle
    exact absurd (by simpa using hs) hstyle
  · rw [heq]
    rcases editOrLater_branches now session text files with
      ⟨f, hf, _, _⟩ | ⟨_, _, heq2⟩ | ⟨_, hg, _, _⟩ | ⟨_, hg, _, _⟩
    · rw [hf] at hgen
      simp [condImageGen] at hgen
    · rw [heq2]
      simp [imageGenIntentOutcome, idleOutcome]
    · rw [hgen] at hg; cases hg
    · rw [hgen] at hg; cases hg

/-- C6 — while a pending image prompt exists and no language switch
matches: if the text exactly matches an enumerated art style, image
generation is invoked with the stored prompt and the matched style (the
backend call carries `A <style lowercased> of: <prompt>`) and the pending
prompt is cleared — the cleared pending state is part of the synchronous
outcome, fixed before the generation call resolves, so it is cleared
regardless of the call's later success or failure (the resolution code,
App.tsx 437–466, only rewrites messages and never touches the pending
prompt); and if the text matches no style, the superseding submission
discards the stored prompt (the pending state afterwards is the new
text's own intent prompt when the submission is itself an image request,
and empty otherwise). -/
theorem style_selection_spec (now : Nat) (session : ChatSession) (p text : String)
    (files : List UploadedFile)
    (hlang : langSwitchTarget session text = none)
    (hne : ¬(jsTrim text = "" ∧ files = [])) :
    (ART_STYLES.contains text = true →
      (handleSendMessage now session (some p) text files).action = .styleSelect p text
      ∧ (handleSendMessage now session (some p) text files).backendCalls =
          [.generateImage ("A " ++ jsToLower text ++ " of: " ++ p)]
      ∧ (handleSendMessage now session (some p) text files).pendingAfter = none
      ∧ (handleSendMessage now session (some p) text files).messages =
          session.messages ++
            [{ id := now, text := text, sender := .user },
             { id := now + 1, text := "", sender := .bot, isLoading := true }])
    ∧ (ART_STYLES.contains text = false →
      (handleSendMessage now session (some p) text files).pendingAfter =
        (if condImageGen text files = true then some text else none)) := by
  constructor
  · intro hs
    rcases handleSendMessage_branches now session (some p) text files hne with
      ⟨t, ht, _⟩ | ⟨_, p2, hp2, _, heq⟩ | ⟨_, hstyle, _⟩
    · rw [hlang] at ht; cases ht
    · injection hp2 with hp2
      subst hp2
      rw [heq]
      simp [imageGenerationOutcome, idleOutcome]
    · simp [condStyle] at hstyle
      exact absurd (by simpa using hs) hstyle
  · intro hs
    rcases handleSendMessage_branches now session (some p) text files hne with
      ⟨t, ht, _⟩ | ⟨_, p2, _, hs2, _⟩ | ⟨_, _, heq⟩
    · rw [hlang] at ht; cases ht
    · rw [hs] at hs2; cases hs2
    · rw [heq]
      rcases editOrLater_branches now session text files with
        ⟨f, hf, _, heq2⟩ | ⟨_, hg, heq2⟩ | ⟨_, hg, _, heq2⟩ | ⟨_, hg, _, heq2⟩
      · rw [heq2, hf]
        simp [imageEditOutcome, idleOutcome, condImageGen]
      · rw [heq2, hg]
        simp [imageGenIntentOutcome, idleOutcome]
      · rw [heq2, hg]
        simp [tripPlanOutcome, idleOutcome]
      · rw [heq2, hg]
        simp [defaultChatOutcome, idleOutcome]


/-- C1 (amended) — for every non-empty submission the router fires
exactly one action, chosen by the fixed priority order: language switch,
then art-style selection (requires a pending prompt), then image edit
(exactly one attached image and non-empty text), then image-generation
intent, then trip-plan shortcut, then default chat — when several
conditions match, the higher-priority rule's action is the only one
taken; and the language-switch, image-generation-intent and trip-plan
actions create no backend call and no loading placeholder.  (The original
claim's stronger clause — that ANY non-default action creates no backend
call and no placeholder — is refuted by
`Gokarna.router_nondefault_backend_call`: the style-selection and
image-edit branches call the image backend and append a loading
placeholder.) -/
theorem router_priority_spec (now : Nat) (session : ChatSession) (pending : Option String)
    (text : String) (files : List UploadedFile)
    (hne : ¬(jsTrim text = "" ∧ files = [])) :
    (∀ t, langSwitchTarget session text = some t →
      (handleSendMessage now session pending text files).action = .langSwitch t)
    ∧ (condLang session text = false → ∀ p, pending = some p →
        ART_STYLES.contains text = true →
        (handleSendMessage now session pending text files).action = .styleSelect p text)
    ∧ (condLang session text = false → condStyle pending text = false →
        ∀ f, files = [f] → (f.mimeType.startsWith "image/" && jsTrim text != "") = true →
        (handleSendMessage now session pending text files).action = .imageEdit f text)
    ∧ (condLang session text = false → condStyle pending text = false →
        condEdit text files = false → condImageGen text files = true →
        (handleSendMessage now session pending text files).action = .imageGenIntent text)
    ∧ (condLang session text = false → condStyle pending text = false →
        condEdit text files = false → condImageGen text files = false →
        condTrip text files = true →
        (handleSendMessage now session pending text files).action = .tripPlan)
    ∧ (condLang session text = false → condStyle pending text = false →
        condEdit text files = false → condImageGen text files = false →
        condTrip text files = false →
        (handleSendMessage now session pending text files).action = .defaultChat)
    ∧ (∀ t, (handleSendMessage now session pending text files).action = .langSwitch t →
        (handleSendMessage now session pending text files).backendCalls = []
        ∧ (handleSendMessage now session pending text files).addedLoadingPlaceholder = false)
    ∧ (∀ p2, (handleSendMessage now session pending text files).action = .imageGenIntent p2 →
        (handleSendMessage now session pending text files).backendCalls = []
        ∧ (handleSendMessage now session pending text files).addedLoadingPlaceholder = false)
    ∧ ((handleSendMessage now session pending text files).action = .tripPlan →
        (handleSendMessage now session pending text files).backendCalls = []
        ∧ (handleSendMessage now session pending text files).addedLoadingPlaceholder = false) := by
  rcases handleSendMessage_branches now session pending text files hne with
    ⟨t, ht, heq⟩ | ⟨hl, p, hp, hs, heq⟩ | ⟨hl, hstyle, heq⟩
  · -- language-switch branch
    rw [heq]
    have hclang : condLang session text = true := by simp [condLang, ht]
    refine ⟨?_, ?_, ?_, ?_, ?_, ?_, ?_, ?_, ?_⟩
    · intro t2 ht2
      rw [ht] at ht2
      injection ht2 with ht2
      subst ht2
      simp [langSwitchOutcome, idleOutcome]
    · intro hcl; rw [hclang] at hcl; cases hcl
    · intro hcl; rw [hclang] at hcl; cases hcl
    · intro hcl; rw [hclang] at hcl; cases hcl
    · intro hcl; rw [hclang] at hcl; cases hcl
    · intro hcl; rw [hclang] at hcl; cases hcl
    · intro t2 _; simp [langSwitchOutcome, idleOutcome]
    · intro p2 hact; simp [langSwitchOutcome, idleOutcome] at hact
    · intro hact; simp [langSwitchOutcome, idleOutcome] at hact
  · -- art-style-selection branch
    rw [heq]
    refine ⟨?_, ?_, ?_, ?_, ?_, ?_, ?_, ?_, ?_⟩
    · intro t2 ht2; rw [hl] at ht2; cases ht2
    · intro _ p2 hp2 _
      rw [hp] at hp2
      injection hp2 with hp2
      subst hp2
      simp [imageGenerationOutcome, idleOutcome]
    · intro _ hcs _ _ _
      rw [hp] at hcs
      simp [condStyle] at hcs
      exact absurd (by simpa using hs) hcs
    · intro _ hcs _ _
      rw [hp] at hcs
      simp [condStyle] at hcs
      exact absurd (by simpa using hs) hcs
    · intro _ hcs _ _ _
      rw [hp] at hcs
      simp [condStyle] at hcs
      exact absurd (by simpa using hs) hcs
    · intro _ hcs _ _ _
      rw [hp] at hcs
      simp [condStyle] at hcs
      exact absurd (by simpa using hs) hcs
    · intro t2 hact; simp [imageGenerationOutcome, idleOutcome] at hact
    · intro p2 hact; simp [imageGenerationOutcome, idleOutcome] at hact
    · intro hact; simp [imageGenerationOutcome, idleOutcome] at hact
  · -- later branches
    rw [heq]
    rcases editOrLater_branches now session text files with
      ⟨f, hf, hcond, heq2⟩ | ⟨hed, hg, heq2⟩ | ⟨hed, hg, ht2, heq2⟩ | ⟨hed, hg, ht2, heq2⟩
    · -- image-edit branch
      rw [heq2]
      refine ⟨?_, ?_, ?_, ?_, ?_, ?_, ?_, ?_, ?_⟩
      · intro t2 htg; rw [hl] at htg; cases htg
      · intro _ p2 hp2 hs2
        rw [hp2] at hstyle
        simp [condStyle] at hstyle
        exact absurd (by simpa using hs2) hstyle
      · intro _ _ f2 hf2 _
        subst hf
        simp only [List.cons.injEq, and_true] at hf2
        subst hf2
        simp [imageEditOutcome, idleOutcome]
      · intro _ _ hce _
        rw [hf] at hce
        simp only [condEdit] at hce
        rw [hcond] at hce
        cases hce
      · intro _ _ hce _ _
        rw [hf] at hce
        simp only [condEdit] at hce
        rw [hcond] at hce
        cases hce
      · intro _ _ hce2 _ _
        rw [hf] at hce2
        simp only [condEdit] at hce2
        rw [hcond] at hce2
        cases hce2
      · intro t2 hact; simp [imageEditOutcome, idleOutcome] at hact
      · intro p2 hact; simp [imageEditOutcome, idleOutcome] at hact
      · intro hact; simp [imageEditOutcome, idleOutcome] at hact
    · -- image-generation-intent branch
      rw [heq2]
      refine ⟨?_, ?_, ?_, ?_, ?_, ?_, ?_, ?_, ?_⟩
      · intro t2 htg; rw [hl] at htg; cases htg
      · intro _ p2 hp2 hs2
        rw [hp2] at hstyle
        simp [condStyle] at hstyle
        exact absurd (by simpa using hs2) hstyle
      · intro _ _ f2 hf2 hcond2
        rw [hf2] at hed
        simp only [condEdit] at hed
        rw [hcond2] at hed
        cases hed
      · intro _ _ _ _; simp [imageGenIntentOutcome, idleOutcome]
      · intro _ _ _ hgf _; rw [hg] at hgf; cases hgf
      · intro _ _ _ hgf _; rw [hg] at hgf; cases hgf
      · intro t2 hact; simp [imageGenIntentOutcome, idleOutcome] at hact
      · intro p2 _; simp [imageGenIntentOutcome, idleOutcome]
      · intro hact; simp [imageGenIntentOutcome, idleOutcome] at hact
    · -- trip-plan branch
      rw [heq2]
      refine ⟨?_, ?_, ?_, ?_, ?_, ?_, ?_, ?_, ?_⟩
      · intro t2 htg; rw [hl] at htg; cases htg
      · intro _ p2 hp2 hs2
        rw [hp2] at hstyle
        simp [condStyle] at hstyle
        exact absurd (by simpa using hs2) hstyle
      · intro _ _ f2 hf2 hcond2
        rw [hf2] at hed
        simp only [condEdit] at hed
        rw [hcond2] at hed
        cases hed
      · intro _ _ _ hgt; rw [hg] at hgt; cases hgt
      · intro _ _ _ _ _; simp [tripPlanOutcome, idleOutcome]
      · intro _ _ _ _ htf; rw [ht2] at htf; cases htf
      · intro t2 hact; simp [tripPlanOutcome, idleOutcome] at hact
      · intro p2 hact; simp [tripPlanOutcome, idleOutcome] at hact
      · intro _; simp [tripPlanOutcome, idleOutcome]
    · -- default-chat branch
      rw [heq2]
      refine ⟨?_, ?_, ?_, ?_, ?_, ?_, ?_, ?_, ?_⟩
      · intro t2 htg; rw [hl] at htg; cases htg
      · intro _ p2 hp2 hs2
        rw [hp2] at hstyle
        simp [condStyle] at hstyle
        exact absurd (by simpa using hs2) hstyle
      · intro _ _ f2 hf2 hcond2
        rw [hf2] at hed
        simp only [condEdit] at hed
        rw [hcond2] at hed
        cases hed
      · intro _ _ _ hgt; rw [hg] at hgt; cases hgt
      · intro _ _ _ _ htf; rw [ht2] at htf; cases htf
      · intro _ _ _ _ _; simp [defaultChatOutcome, idleOutcome]
      · intro t2 hact; simp [defaultChatOutcome, idleOutcome] at hact
      · intro p2 hact; simp [defaultChatOutcome, idleOutcome] at hact
      · intro hact; simp [defaultChatOutcome, idleOutcome] at hact

/-- C1 witness: a plain conversational submission reaches the
default-chat branch. -/
theorem router_priority_spec_witness :
    (handleSendMessage 100 ⟨"s1", "t", [], "en-US"⟩ none "hello there" []).action =
      RouterAction.defaultChat :=
  (router_priority_spec 100 ⟨"s1", "t", [], "en-US"⟩ none "hello there" []
      (by decide)).2.2.2.2.2.1 (by decide) (by decide) (by decide) (by decide) (by decide)

/-- C2 witness: the "switch to Hindi" scenario. -/
theorem lang_switch_spec_witness :
    (handleSendMessage 100 ⟨"s1", "New Chat", [], "en-US"⟩ none "switch to Hindi" []).action =
      RouterAction.langSwitch ⟨"hi-IN", "Hindi"⟩
    ∧ (handleSendMessage 100 ⟨"s1", "New Chat", [], "en-US"⟩ none
        "switch to Hindi" []).languageCode = "hi-IN"
    ∧ (handleSendMessage 100 ⟨"s1", "New Chat", [], "en-US"⟩ none
        "switch to Hindi" []).backendCalls = [] := by
  have h := lang_switch_spec 100 ⟨"s1", "New Chat", [], "en-US"⟩ none "switch to Hindi" []
      ⟨"hi-IN", "Hindi"⟩ (by decide) (by decide)
  exact ⟨h.1, h.2.1, h.2.2.2.1⟩

/-- C5 witness: "generate a sunset over the beach" with no files and no
pending prompt. -/
theorem image_gen_intent_spec_witness :
    (handleSendMessage 100 ⟨"s1", "t", [], "en-US"⟩ none
        "generate a sunset over the beach" []).action =
      RouterAction.imageGenIntent "generate a sunset over the beach"
    ∧ (handleSendMessage 100 ⟨"s1", "t", [], "en-US"⟩ none
        "generate a sunset over the beach" []).pendingAfter =
        some "generate a sunset over the beach"
    ∧ (handleSendMessage 100 ⟨"s1", "t", [], "en-US"⟩ none
        "generate a sunset over the beach" []).backendCalls = [] := by
  have h := image_gen_intent_spec 100 ⟨"s1", "t", [], "en-US"⟩ none
      "generate a sunset over the beach" [] (by decide) (by decide) (by decide) (by decide)
  exact ⟨h.1, h.2.1, h.2.2.2.1⟩

/-- C6 witness: "Watercolor" sent while the pending prompt
"a sunset over the beach" exists. -/
theorem style_selection_spec_witness :
    (handleSendMessage 100 ⟨"s1", "t", [], "en-US"⟩ (some "a sunset over the beach")
        "Watercolor" []).action = RouterAction.styleSelect "a sunset over the beach" "Watercolor"
    ∧ (handleSendMessage 100 ⟨"s1", "t", [], "en-US"⟩ (some "a sunset over the beach")
        "Watercolor" []).backendCalls =
        [BackendCall.generateImage "A watercolor of: a sunset over the beach"]
    ∧ (handleSendMessage 100 ⟨"s1", "t", [], "en-US"⟩ (some "a sunset over the beach")
        "Watercolor" []).pendingAfter = none := by
  have h := (style_selection_spec 100 ⟨"s1", "t", [], "en-US"⟩ "a sunset over the beach"
      "Watercolor" [] (by decide) (by decide)).1 (by decide)
  exact ⟨h.1, h.2.1, h.2.2.1⟩


/-- C1 counterexample — a submission taking the art-style-selection
branch (pending prompt set, text `Watercolor`): the action is not the
default chat branch, yet a backend image-generation call is issued and a
loading placeholder is appended, refuting "any action other than the
default chat branch creates no backend call and no loading placeholder".
-/
theorem router_nondefault_backend_call :
    (handleSendMessage 100 ⟨"s1", "t", [], "en-US"⟩ (some "a sunset over the beach")
        "Watercolor" []).action = .styleSelect "a sunset over the beach" "Watercolor"
    ∧ (handleSendMessage 100 ⟨"s1", "t", [], "en-US"⟩ (some "a sunset over the beach")
        "Watercolor" []).backendCalls =
        [.generateImage "A watercolor of: a sunset over the beach"]
    ∧ (handleSendMessage 100 ⟨"s1", "t", [], "en-US"⟩ (some "a sunset over the beach")
        "Watercolor" []).addedLoadingPlaceholder = true := by
  decide

/-- C2 counterexample — the scenario "switch to Hindi" from English: the
session language does become `hi-IN` and no backend call is made, but the
appended confirmation text is the fixed English sentence
`Certainly! I will now respond in Hindi.`, every character of which lies
below U+0900 — it contains no Devanagari at all, so it is not a
confirmation written in Hindi as the claim states. -/
theorem lang_switch_confirmation_english :
    (handleSendMessage 100 ⟨"s1", "New Chat", [], "en-US"⟩ none "switch to Hindi" []).languageCode
      = "hi-IN"
    ∧ (handleSendMessage 100 ⟨"s1", "New Chat", [], "en-US"⟩ none "switch to Hindi" []).messages =
        [{ id := 100, text := "switch to Hindi", sender := .user },
         { id := 101, text := "Certainly! I will now respond in Hindi.", sender := .bot }]
    ∧ ("Certainly! I will now respond in Hindi.".data.all (fun c => c.toNat < 0x900)) = true := by
  decide

end Gokarna
